import Mathlib

/-!
Shallow embedding of `src/script.py` (firefly-gaf): a script that scans a
Firefly III account for withdrawal transactions whose notes carry an
"Original account name: <beneficiary>" marker, collects the distinct
beneficiary names, and creates one fixing rule per name.

JSON values are modelled by an inductive `Json`; HTTP responses by a
`Response` record carrying the status code, the raw body text and the body
parse result (`json = none` models a body that is not parseable JSON).
Python exceptions raised by the script are modelled by `RunError`.
Generators are modelled by event traces: the order of `Event.get` and
`Event.yield` entries in the trace mirrors the order in which the lazy
generator performs fetches and hands items to its consumer.
-/

namespace FireflyGaf

/-- A parsed JSON value.  Objects keep their fields as an association list;
the Python side only ever produces objects with distinct keys, and key
lookup takes the first binding, matching Python dict access. -/
inductive Json where
  | null : Json
  | bool (b : Bool) : Json
  | num (n : Int) : Json
  | str (s : String) : Json
  | arr (items : List Json) : Json
  | obj (fields : List (String × Json)) : Json

/-- An HTTP response: status code, raw body text, and the result of parsing
the body as JSON (`none` when `r.json()` would raise `JSONDecodeError`). -/
structure Response where
  status : Nat
  text : String
  json : Option Json

/-- The exceptions the script can raise.
`formatError` models the `ValueError` raised for unparseable or
unexpectedly shaped bodies; `apiError` the `RuntimeError` built from the
error envelope; `validationError` pydantic's `ValidationError`; `crash` an
unhandled `KeyError`/`TypeError` from a raw subscript or a non-string
regex subject; `httpError` the `HTTPError` from `raise_for_status`;
`fuelOut` marks exhaustion of the explicit recursion fuel used to model
the unbounded page chain. -/
inductive RunError where
  | formatError (msg : String) : RunError
  | apiError (msg : String) : RunError
  | validationError : RunError
  | crash (msg : String) : RunError
  | httpError : RunError
  | fuelOut : RunError
deriving DecidableEq

mutual

/-- Textual rendering of a JSON value, standing in for Python's `str()` of
the parsed object inside f-strings.  No claim depends on the exact text,
only on which error constructor carries it. -/
def jsonRepr : Json → String
  | Json.null => "None"
  | Json.bool true => "True"
  | Json.bool false => "False"
  | Json.num n => toString n
  | Json.str s => "\x27" ++ s ++ "\x27"
  | Json.arr items => "[" ++ jsonReprList items ++ "]"
  | Json.obj fields => "\x7b" ++ jsonReprFields fields ++ "\x7d"

/-- Renders the elements of a JSON array, comma separated. -/
def jsonReprList : List Json → String
  | [] => ""
  | [x] => jsonRepr x
  | x :: xs => jsonRepr x ++ ", " ++ jsonReprList xs

/-- Renders the fields of a JSON object, comma separated. -/
def jsonReprFields : List (String × Json) → String
  | [] => ""
  | [(k, v)] => "\x27" ++ k ++ "\x27: " ++ jsonRepr v
  | (k, v) :: fs => "\x27" ++ k ++ "\x27: " ++ jsonRepr v ++ ", " ++ jsonReprFields fs

end

/-- Holds exactly on JSON objects.  This is the validator corresponding to
`expected_type=dict` in the script: pydantic accepts any dict, with no
constraint on its fields. -/
def jsonIsObj : Json → Bool
  | Json.obj _ => true
  | _ => false

/-- The validator corresponding to `expected_type=list[T]`: the value must
be a list and every element must satisfy the element validator. -/
def jsonArrAll (p : Json → Bool) : Json → Bool
  | Json.arr items => items.all p
  | _ => false

/-- The error envelope test of `process_api_response` (script.py line 61):
`case \x7b"message": str() as message, "exception": str() as exception\x7d`
matches when both fields are present and textual, and yields the combined
message `exception ++ ": " ++ message` (line 62). -/
def errEnvelopeMsg (fields : List (String × Json)) : Option String :=
  match List.lookup "message" fields, List.lookup "exception" fields with
  | some (Json.str message), some (Json.str exc) => some (exc ++ ": " ++ message)
  | _, _ => none

/-- Embedding of `process_api_response` (script.py lines 41-67).  The
expected type is abstracted by the validator `p`; on success pydantic
returns the (conforming) data value itself for the `dict` / `list[dict]`
types the script uses, so success carries the data `Json` unchanged.
The match arms follow the Python `match` statement in order: the error
envelope first, then any object with a `data` field (whose value may be
any JSON value, matching the `object()` pattern), then the catch-all
`ValueError`. -/
def process_api_response (p : Json → Bool) (r : Response) : Except RunError Json :=
  match r.json with
  | none => Except.error (RunError.formatError ("Unexpected response format: " ++ r.text))
  | some data =>
    match data with
    | Json.obj fields =>
      match errEnvelopeMsg fields with
      | some m => Except.error (RunError.apiError m)
      | none =>
        match List.lookup "data" fields with
        | some actual =>
          if p actual then Except.ok actual else Except.error RunError.validationError
        | none =>
          Except.error (RunError.formatError ("Unexpected response format: " ++ jsonRepr data))
    | _ => Except.error (RunError.formatError ("Unexpected response format: " ++ jsonRepr data))

/-- An event of the lazy pagination generator: `get u` records the fetch of
the next page at URL `u`, `yield j` records one item being handed to the
consumer.  Because the generator is pull-driven, the position of a `get`
in the trace is the moment the consumer's pull forced the fetch. -/
inductive Event where
  | get (url : String) : Event
  | yield (item : Json) : Event

/-- The `links.next` test of `process_paginated_api_response` (script.py
line 91): `case \x7b"links": \x7b"next": str() as next\x7d\x7d`. -/
def jsonNext (data : Json) : Option String :=
  match data with
  | Json.obj fields =>
    match List.lookup "links" fields with
    | some (Json.obj links) =>
      match List.lookup "next" links with
      | some (Json.str nxt) => some nxt
      | _ => none
    | _ => none
  | _ => none

/-- The page decode of the paginated reader: `process_api_response` with
`expected_type=list[T]` (script.py line 88).  Validation accepts exactly
the lists whose elements all satisfy the element validator `p` and
returns the item list. -/
def decodePageItems (p : Json → Bool) (r : Response) : Except RunError (List Json) :=
  match process_api_response (jsonArrAll p) r with
  | Except.error e => Except.error e
  | Except.ok (Json.arr items) => Except.ok items
  | Except.ok _ => Except.error RunError.validationError

/-- Embedding of `process_paginated_api_response` (script.py lines 70-98)
as an event trace together with the final outcome (`none` = the generator
ran to completion, `some e` = it raised `e` at that point of the trace).
On each page: parse the body (line 84), decode and yield the items
(line 88), then — only after the consumer has pulled past the last item —
follow `links.next` with a fresh GET and recurse (lines 90-98).  The
Python recursion has no bound, so an explicit fuel argument counts the
pages the model is willing to walk; `fuelOut` never occurs on the finite
page chains the theorems consider. -/
def process_paginated_api_response (server : String → Response) (p : Json → Bool) :
    Nat → Response → List Event × Option RunError
  | 0, _ => ([], some RunError.fuelOut)
  | fuel + 1, r =>
    match r.json with
    | none => ([], some (RunError.formatError ("Unexpected response format: " ++ r.text)))
    | some data =>
      match decodePageItems p r with
      | Except.error e => ([], some e)
      | Except.ok items =>
        match jsonNext data with
        | some nxt =>
          let rest := process_paginated_api_response server p fuel (server nxt)
          (items.map Event.yield ++ Event.get nxt :: rest.1, rest.2)
        | none => (items.map Event.yield, none)

/-- The items a trace hands to the consumer, in pull order. -/
def yieldedItems (events : List Event) : List Json :=
  events.filterMap fun e =>
    match e with
    | Event.yield j => some j
    | Event.get _ => none

/-- Builds the body of a one-page API response: a `data` list plus, when a
following page exists, a `links.next` URL.  This is the page shape the
spec describes for paginated list calls. -/
def mkPageBody (items : List Json) (nxt : Option String) : Json :=
  match nxt with
  | some u => Json.obj [("data", Json.arr items), ("links", Json.obj [("next", Json.str u)])]
  | none => Json.obj [("data", Json.arr items)]

/-- A well-formed 200 response holding one page. -/
def mkPageResponse (items : List Json) (nxt : Option String) : Response :=
  { status := 200, text := "", json := some (mkPageBody items nxt) }

/-- The regex literal of the scan, `Original account name: ` (script.py
line 278), as a character list. -/
def markerL : List Char := "Original account name: ".toList

/-- Anchored matching: true when the pattern matches at the start of the
subject — the single-position step of the regex scan. -/
def matchesAt : List Char → List Char → Bool
  | [], _ => true
  | _ :: _, [] => false
  | m :: ms, c :: cs => m == c && matchesAt ms cs

/-- The `re.search` of the scan for the pattern
`Original account name: ([^\n]*)` restricted to locating the literal:
scan left to right for the first position where the literal matches and
return the suffix after it (the region the capture group is taken from).
A nonempty pattern never matches the empty suffix. -/
def searchMarker (s : List Char) : Option (List Char) :=
  if matchesAt markerL s then some (s.drop markerL.length)
  else
    match s with
    | [] => none
    | _ :: cs => searchMarker cs

/-- The whitespace set of Python's `str.strip()` on ASCII input. -/
def pyWhitespace (c : Char) : Bool :=
  c = ' ' || c = '\t' || c = '\n' || c = '\r' || c = '\x0b' || c = '\x0c'

/-- Python `str.strip()`: drop leading and trailing whitespace. -/
def stripChars (l : List Char) : List Char :=
  ((l.dropWhile pyWhitespace).reverse.dropWhile pyWhitespace).reverse

/-- Embedding of the note extraction of `main` (script.py lines 277-289):
`re.search` for `Original account name: ([^\n]*)` — the greedy capture
takes every character after the literal up to the next newline (or the end
of the note) — followed by `.strip()` on the captured group.  `none` means
the regex did not match and the transaction is skipped. -/
def extract_beneficiary (notes : String) : Option String :=
  match searchMarker notes.toList with
  | none => none
  | some rest => some (String.mk (stripChars (rest.takeWhile fun c => c != '\n')))

/-- A request the script sends: a GET with query parameters, or a POST
with a JSON body. -/
inductive Request where
  | get (url : String) (params : List (String × String)) : Request
  | post (url : String) (body : Json) : Request

/-- True on GET requests. -/
def isGetRequest : Request → Bool
  | Request.get _ _ => true
  | Request.post _ _ => false

/-- The GET requests recorded in a pagination trace, in order. -/
def eventRequests (events : List Event) : List Request :=
  events.filterMap fun e =>
    match e with
    | Event.get u => some (Request.get u [])
    | Event.yield _ => none

/-- Python subscript `j[k]` on a parsed JSON value: a missing key raises
`KeyError`, subscripting a non-object raises `TypeError`; both are
unhandled in the script and abort the run. -/
def getItem (j : Json) (k : String) : Except RunError Json :=
  match j with
  | Json.obj fields =>
    match List.lookup k fields with
    | some v => Except.ok v
    | none => Except.error (RunError.crash ("KeyError: " ++ k))
  | _ => Except.error (RunError.crash "TypeError: value is not subscriptable")

/-- The per-page flatten of `get_transactions_with_notes` (script.py
line 144): `page["attributes"]["transactions"]`.  The page passed
pagination validation only as a generic dict, so the two raw subscripts
can raise `KeyError`/`TypeError`.  A `transactions` value that is not a
list would in Python be fed to `yield from` and either raise `TypeError`
or yield scalar elements that crash at the first subscript of the loop
body; both are modelled as an immediate crash. -/
def getTransactionsFromPage (page : Json) : Except RunError (List Json) :=
  match page with
  | Json.obj fields =>
    match List.lookup "attributes" fields with
    | some (Json.obj attrs) =>
      match List.lookup "transactions" attrs with
      | some (Json.arr txs) => Except.ok txs
      | some _ => Except.error (RunError.crash "TypeError: transactions is not a list")
      | none => Except.error (RunError.crash "KeyError: transactions")
    | some _ => Except.error (RunError.crash "TypeError: attributes is not subscriptable")
    | none => Except.error (RunError.crash "KeyError: attributes")
  | _ => Except.error (RunError.crash "TypeError: page is not subscriptable")

/-- Flattens all pages into the transaction stream (script.py line 144),
aborting at the first malformed page. -/
def pagesToTxs : List Json → Except RunError (List Json)
  | [] => Except.ok []
  | page :: pages =>
    match getTransactionsFromPage page with
    | Except.error e => Except.error e
    | Except.ok txs =>
      match pagesToTxs pages with
      | Except.error e => Except.error e
      | Except.ok rest => Except.ok (txs ++ rest)

/-- What the scan loop body does to one transaction (script.py
lines 269-289), besides the set insertion: it logs the journal id and the
notes (the two subscripts on line 272-273 are evaluated eagerly and can
crash), runs the regex on the notes (line 277; a non-string notes value
raises `TypeError` inside `re.search`), and either logs an error for a
non-matching note or produces the extracted name. -/
inductive ScanEvent where
  | logError (txid : Json) : ScanEvent
  | addName (name : String) : ScanEvent

/-- One iteration of the scan loop over a raw transaction value. -/
def processTx (tx : Json) : Except RunError ScanEvent :=
  match tx with
  | Json.obj fields =>
    match List.lookup "transaction_journal_id" fields with
    | none => Except.error (RunError.crash "KeyError: transaction_journal_id")
    | some txid =>
      match List.lookup "notes" fields with
      | none => Except.error (RunError.crash "KeyError: notes")
      | some (Json.str notes) =>
        match extract_beneficiary notes with
        | none => Except.ok (ScanEvent.logError txid)
        | some name => Except.ok (ScanEvent.addName name)
      | some _ => Except.error (RunError.crash "TypeError: expected string for re.search")
  | _ => Except.error (RunError.crash "TypeError: transaction is not subscriptable")

/-- The scan loop over the transaction stream: processes transactions in
order and aborts at the first unhandled exception. -/
def scanAll : List Json → Except RunError (List ScanEvent)
  | [] => Except.ok []
  | tx :: txs =>
    match processTx tx with
    | Except.error e => Except.error e
    | Except.ok ev =>
      match scanAll txs with
      | Except.error e => Except.error e
      | Except.ok evs => Except.ok (ev :: evs)

/-- Insertion into the `missing_rules` set (script.py line 289).  Python
set iteration order is unspecified; the model determinizes it to first
insertion order, which no claim depends on. -/
def dedupAdd (acc : List String) (n : String) : List String :=
  if n ∈ acc then acc else acc ++ [n]

/-- Folds one scan event into the name accumulator: only `addName`
events touch the set. -/
def addEvent (acc : List String) : ScanEvent → List String
  | ScanEvent.logError _ => acc
  | ScanEvent.addName n => dedupAdd acc n

/-- The `missing_rules` set after the scan, as a duplicate-free list. -/
def namesFromEvents (events : List ScanEvent) : List String :=
  events.foldl addEvent []

/-- The name carried by a scan event, if any. -/
def ScanEvent.nameOf : ScanEvent → Option String
  | ScanEvent.logError _ => none
  | ScanEvent.addName n => some n

/-- The name a well-formed transaction contributes: its `notes` string run
through the extraction.  Partial view used to state theorems; the scan
itself is `processTx`. -/
def txName (tx : Json) : Option String :=
  match tx with
  | Json.obj fields =>
    match List.lookup "notes" fields with
    | some (Json.str notes) => extract_beneficiary notes
    | _ => none
  | _ => none

/-- Python `str()` of a JSON scalar, for the f-string building the trigger
URL (script.py line 192).  Containers fall back to `jsonRepr`. -/
def jsonToStr : Json → String
  | Json.str s => s
  | Json.num n => toString n
  | Json.bool true => "True"
  | Json.bool false => "False"
  | Json.null => "None"
  | j => jsonRepr j

/-- The rule creation endpoint. -/
def rulesUrl : String := "/api/v1/rules"

/-- The rule creation body (script.py lines 159-184), verbatim: title,
group, strict, trigger kind, the three trigger conditions and the one
action. -/
def ruleBody (account beneficiary group : String) : Json :=
  Json.obj
    [("title", Json.str beneficiary),
     ("rule_group_title", Json.str group),
     ("strict", Json.bool true),
     ("trigger", Json.str "store-journal"),
     ("triggers", Json.arr
       [Json.obj [("type", Json.str "transaction_type"), ("value", Json.str "withdrawal")],
        Json.obj [("type", Json.str "to_account_is"), ("value", Json.str account)],
        Json.obj [("type", Json.str "notes_contains"),
                  ("value", Json.str ("Original account name: " ++ beneficiary))]]),
     ("actions", Json.arr
       [Json.obj [("type", Json.str "set_destination_account"),
                  ("value", Json.str beneficiary)]])]

/-- Embedding of `create_fixing_rule` (script.py lines 147-193): POST the
rule body, decode the created rule (`expected_type=dict`), read its `id`
(raw subscript, line 190), then POST an empty JSON body to the trigger
endpoint and `raise_for_status()` — which raises exactly for status codes
in `[400, 600)`.  Returns the requests issued (also on failure) and the
created rule. -/
def create_fixing_rule (postS : String → Json → Response)
    (account beneficiary group : String) : List Request × Except RunError Json :=
  let body := ruleBody account beneficiary group
  match process_api_response jsonIsObj (postS rulesUrl body) with
  | Except.error e => ([Request.post rulesUrl body], Except.error e)
  | Except.ok rule =>
    match getItem rule "id" with
    | Except.error e => ([Request.post rulesUrl body], Except.error e)
    | Except.ok idv =>
      let turl := "/api/v1/rules/" ++ jsonToStr idv ++ "/trigger"
      if 400 ≤ (postS turl (Json.obj [])).status ∧ (postS turl (Json.obj [])).status < 600 then
        ([Request.post rulesUrl body, Request.post turl (Json.obj [])],
         Except.error RunError.httpError)
      else
        ([Request.post rulesUrl body, Request.post turl (Json.obj [])], Except.ok rule)

/-- The field accesses of the success log line after each rule creation
(script.py lines 313-317): `rule["attributes"]["title"]` and `rule["id"]`,
evaluated eagerly as logging call arguments. -/
def ruleLogFields (rule : Json) : Except RunError Unit :=
  match getItem rule "attributes" with
  | Except.error e => Except.error e
  | Except.ok attrs =>
    match getItem attrs "title" with
    | Except.error e => Except.error e
    | Except.ok _ =>
      match getItem rule "id" with
      | Except.error e => Except.error e
      | Except.ok _ => Except.ok ()

/-- The rule creation loop of `main` (script.py lines 311-317): one
`create_fixing_rule` per distinct beneficiary, aborting at the first
raised exception; returns the requests issued so far in any case. -/
def provisionAll (postS : String → Json → Response) (account group : String) :
    List String → List Request × Option RunError
  | [] => ([], none)
  | b :: bs =>
    let step := create_fixing_rule postS account b group
    match step.2 with
    | Except.error e => (step.1, some e)
    | Except.ok rule =>
      match ruleLogFields rule with
      | Except.error e => (step.1, some e)
      | Except.ok _ =>
        let rest := provisionAll postS account group bs
        (step.1 ++ rest.1, rest.2)

/-- The titles of the rule creation POSTs in a request list: a creation
POST is recognised by its JSON body carrying a textual `title` field (the
only other POSTs, the trigger calls, have an empty object body). -/
def ruleCreationTitles (reqs : List Request) : List String :=
  reqs.filterMap fun r =>
    match r with
    | Request.post _ (Json.obj fields) =>
      match List.lookup "title" fields with
      | some (Json.str t) => some t
      | _ => none
    | _ => none

/-- The search query string of `get_transactions_with_notes` (script.py
lines 131-139): the space-joined `key:"value"` clauses, in the insertion
order of the query dict. -/
def searchQuery (account : String) : String :=
  "account_is:\"" ++ account ++ "\" type:\"withdrawal\""
    ++ " notes_contain:\"Original account name\""

/-- The field accesses of the authentication log line (script.py
line 264): `user["attributes"]["email"]`, evaluated eagerly. -/
def userEmailFields (user : Json) : Except RunError Unit :=
  match getItem user "attributes" with
  | Except.error e => Except.error e
  | Except.ok attrs =>
    match getItem attrs "email" with
    | Except.error e => Except.error e
    | Except.ok _ => Except.ok ()

/-- Embedding of `get_transactions_with_notes` (script.py lines 124-144):
drive the paginated reader (each page validated only as a generic dict)
over the search response, then flatten each page's
`attributes.transactions` list.  The model sequences all page fetches
before the flatten; this preserves the set of requests and every error
outcome, though not the fetch/flatten interleaving, which only the
pagination trace theorem speaks about. -/
def get_transactions_with_notes (server : String → Response) (fuel : Nat)
    (rSearch : Response) : List Event × Except RunError (List Json) :=
  let pag := process_paginated_api_response server jsonIsObj fuel rSearch
  match pag.2 with
  | some e => (pag.1, Except.error e)
  | none =>
    match pagesToTxs (yieldedItems pag.1) with
    | Except.error e => (pag.1, Except.error e)
    | Except.ok txs => (pag.1, Except.ok txs)

/-- Embedding of `main` (script.py lines 245-317) as the list of requests
issued plus the final outcome.  `getS` answers the pagination GETs,
`postS` the rule POSTs; `rUser` and `rSearch` are the responses to the
authentication GET and to the initial search GET.  Steps, in order:
decode the current user and touch its email field; scan the account
(paginated search, flatten, per-transaction extraction into the
deduplicating set); stop after the read-only part when nothing is missing
or when `dry_run` is set; otherwise provision one rule per distinct
beneficiary. -/
def main_run (getS : String → Response) (postS : String → Json → Response)
    (rUser rSearch : Response) (fuel : Nat) (dry_run : Bool)
    (account group : String) : List Request × Option RunError :=
  let userReq := Request.get "/api/v1/about/user" []
  match process_api_response jsonIsObj rUser with
  | Except.error e => ([userReq], some e)
  | Except.ok user =>
    match userEmailFields user with
    | Except.error e => ([userReq], some e)
    | Except.ok _ =>
      let searchReq :=
        Request.get "/api/v1/search/transactions" [("query", searchQuery account)]
      let gt := get_transactions_with_notes getS fuel rSearch
      let baseReqs := userReq :: searchReq :: eventRequests gt.1
      match gt.2 with
      | Except.error e => (baseReqs, some e)
      | Except.ok txs =>
        match scanAll txs with
        | Except.error e => (baseReqs, some e)
        | Except.ok scanEvs =>
          let missing := namesFromEvents scanEvs
          if missing.isEmpty then (baseReqs, none)
          else if dry_run then (baseReqs, none)
          else
            let prov := provisionAll postS account group missing
            (baseReqs ++ prov.1, prov.2)

/-- A concrete server answering the two follow-up page fetches of a
three-page pagination scenario. -/
def pageServer : String → Response := fun u =>
  if u = "page2" then mkPageResponse [Json.num 21, Json.num 22] (some "page3")
  else mkPageResponse [Json.num 31] none

/-- A concrete response whose body carries the error envelope and a `data`
field at the same time. -/
def envelopeAndDataResp : Response :=
  { status := 200, text := "",
    json := some (Json.obj
      [("message", Json.str "broken"), ("exception", Json.str "ServerException"),
       ("data", Json.obj [])]) }

/-- The rule object a concrete rule-creation responder hands back. -/
def cexRule : Json := Json.obj [("id", Json.str "7"), ("attributes", Json.obj [("title", Json.str "Total Wine")])]

/-- A concrete responder whose rule creation succeeds and whose trigger
endpoint answers with status 304 (a non-2xx status outside the
`raise_for_status` range). -/
def cexPost : String → Json → Response := fun u _ =>
  if u = rulesUrl then { status := 200, text := "", json := some (Json.obj [("data", cexRule)]) }
  else { status := 304, text := "", json := none }

/-! ## Theorems -/

/-- C6: for every response whose parsed body is an object containing both a
textual `message` field `m` and a textual `exception` field `e`, decoding
fails with an `ApiError` whose message text equals `e ++ ": " ++ m`. -/
theorem error_envelope_message_format (p : Json → Bool) (r : Response)
    (fields : List (String × Json)) (m e : String)
    (hbody : r.json = some (Json.obj fields))
    (hm : List.lookup "message" fields = some (Json.str m))
    (he : List.lookup "exception" fields = some (Json.str e)) :
    process_api_response p r = Except.error (RunError.apiError (e ++ ": " ++ m)) := by
  simp [process_api_response, hbody, errEnvelopeMsg, hm, he]

theorem error_envelope_message_format_witness :
    process_api_response jsonIsObj
      { status := 500, text := "",
        json := some (Json.obj [("message", Json.str "m1"), ("exception", Json.str "e1")]) }
      = Except.error (RunError.apiError "e1: m1") :=
  error_envelope_message_format jsonIsObj _ _ "m1" "e1" rfl rfl rfl

/-- C7: an unparseable body fails with a `FormatError` carrying the raw
body text; a parsed body matching neither the error envelope nor the
success envelope (an object with a `data` field) also fails with a
`FormatError`, whether it is an object without those fields or not an
object at all. -/
theorem format_error_cases :
    (∀ (p : Json → Bool) (r : Response), r.json = none →
      process_api_response p r
        = Except.error (RunError.formatError ("Unexpected response format: " ++ r.text)))
    ∧ (∀ (p : Json → Bool) (r : Response) (fields : List (String × Json)),
        r.json = some (Json.obj fields) → errEnvelopeMsg fields = none →
        List.lookup "data" fields = none →
        process_api_response p r
          = Except.error (RunError.formatError
              ("Unexpected response format: " ++ jsonRepr (Json.obj fields))))
    ∧ (∀ (p : Json → Bool) (r : Response) (d : Json),
        r.json = some d → jsonIsObj d = false →
        process_api_response p r
          = Except.error (RunError.formatError
              ("Unexpected response format: " ++ jsonRepr d))) := by
  refine ⟨?_, ?_, ?_⟩
  · intro p r h
    simp [process_api_response, h]
  · intro p r fields hbody henv hdata
    simp [process_api_response, hbody, henv, hdata]
  · intro p r d hbody hobj
    cases d <;> simp_all [process_api_response, jsonIsObj]

theorem format_error_cases_witness :
    (process_api_response jsonIsObj { status := 200, text := "oops", json := none }
      = Except.error (RunError.formatError "Unexpected response format: oops"))
    ∧ (process_api_response jsonIsObj
        { status := 200, text := "", json := some (Json.obj [("foo", Json.null)]) }
        = Except.error (RunError.formatError
            ("Unexpected response format: " ++ jsonRepr (Json.obj [("foo", Json.null)]))))
    ∧ (process_api_response jsonIsObj
        { status := 200, text := "", json := some (Json.arr []) }
        = Except.error (RunError.formatError
            ("Unexpected response format: " ++ jsonRepr (Json.arr [])))) :=
  ⟨format_error_cases.1 jsonIsObj _ rfl,
   format_error_cases.2.1 jsonIsObj _ _ rfl rfl rfl,
   format_error_cases.2.2 jsonIsObj _ _ rfl rfl⟩

/-- C5, counterexample to the claim as stated: a parsed body that is an
object with a `data` field but that also carries the error envelope is
decoded to an `ApiError`, not to the data value, even when the data
conforms to the expected shape (here: any value conforms). -/
theorem data_with_error_envelope_not_identity_cex :
    envelopeAndDataResp.json
      = some (Json.obj
          [("message", Json.str "broken"), ("exception", Json.str "ServerException"),
           ("data", Json.obj [])])
    ∧ process_api_response (fun _ => true) envelopeAndDataResp
        = Except.error (RunError.apiError "ServerException: broken")
    ∧ process_api_response (fun _ => true) envelopeAndDataResp ≠ Except.ok (Json.obj []) := by
  refine ⟨rfl, rfl, ?_⟩
  rw [show process_api_response (fun _ => true) envelopeAndDataResp
      = Except.error (RunError.apiError "ServerException: broken") from rfl]
  simp

/-- C5, amended: for every response whose parsed body is an object with a
`data` field and without the error envelope (the envelope is matched
first), decoding with an expected shape the data conforms to returns the
data value unchanged, and decoding with a shape it does not conform to
fails with a `ValidationError`. -/
theorem decode_data_identity_or_validation (p : Json → Bool) (r : Response)
    (fields : List (String × Json)) (d : Json)
    (hbody : r.json = some (Json.obj fields))
    (henv : errEnvelopeMsg fields = none)
    (hdata : List.lookup "data" fields = some d) :
    (p d = true → process_api_response p r = Except.ok d)
    ∧ (p d = false → process_api_response p r = Except.error RunError.validationError) := by
  constructor <;> intro hp <;> simp [process_api_response, hbody, henv, hdata, hp]

theorem decode_data_identity_or_validation_witness :
    (process_api_response jsonIsObj
        { status := 200, text := "", json := some (Json.obj [("data", Json.obj [("x", Json.num 1)])]) }
      = Except.ok (Json.obj [("x", Json.num 1)]))
    ∧ (process_api_response (jsonArrAll fun _ => true)
        { status := 200, text := "", json := some (Json.obj [("data", Json.obj [("x", Json.num 1)])]) }
      = Except.error RunError.validationError) :=
  ⟨(decode_data_identity_or_validation jsonIsObj
      { status := 200, text := "", json := some (Json.obj [("data", Json.obj [("x", Json.num 1)])]) }
      [("data", Json.obj [("x", Json.num 1)])] (Json.obj [("x", Json.num 1)]) rfl rfl rfl).1 rfl,
   (decode_data_identity_or_validation (jsonArrAll fun _ => true)
      { status := 200, text := "", json := some (Json.obj [("data", Json.obj [("x", Json.num 1)])]) }
      [("data", Json.obj [("x", Json.num 1)])] (Json.obj [("x", Json.num 1)]) rfl rfl rfl).2 rfl⟩

/-- Decoding a well-formed page whose items all pass validation succeeds
with exactly the page's item list. -/
theorem decodePageItems_mkPage (p : Json → Bool) (items : List Json) (nxt : Option String)
    (hp : items.all p = true) :
    decodePageItems p (mkPageResponse items nxt) = Except.ok items := by
  cases nxt <;>
    simp [decodePageItems, process_api_response, mkPageResponse, mkPageBody,
      errEnvelopeMsg, jsonArrAll, hp, List.lookup]

/-- The parse result of a built page response is its body. -/
theorem mkPageResponse_json (items : List Json) (nxt : Option String) :
    (mkPageResponse items nxt).json = some (mkPageBody items nxt) := rfl

/-- A page body with a `links.next` URL points at it. -/
theorem jsonNext_mkPage_some (items : List Json) (u : String) :
    jsonNext (mkPageBody items (some u)) = some u := by
  simp [jsonNext, mkPageBody, List.lookup]

/-- A page body without `links` ends the chain. -/
theorem jsonNext_mkPage_none (items : List Json) :
    jsonNext (mkPageBody items none) = none := by
  simp [jsonNext, mkPageBody, List.lookup]

/-- One pagination step on a non-final page: yield the page's items, then
fetch the next page and continue with its trace. -/
theorem paginated_step_next (server : String → Response) (p : Json → Bool) (fuel : Nat)
    (items : List Json) (u : String) (hp : items.all p = true) :
    process_paginated_api_response server p (fuel + 1) (mkPageResponse items (some u))
      = (items.map Event.yield
          ++ Event.get u :: (process_paginated_api_response server p fuel (server u)).1,
         (process_paginated_api_response server p fuel (server u)).2) := by
  simp [process_paginated_api_response, mkPageResponse_json,
    decodePageItems_mkPage p items (some u) hp, jsonNext_mkPage_some]

/-- One pagination step on the final page: yield its items and stop. -/
theorem paginated_step_last (server : String → Response) (p : Json → Bool) (fuel : Nat)
    (items : List Json) (hp : items.all p = true) :
    process_paginated_api_response server p (fuel + 1) (mkPageResponse items none)
      = (items.map Event.yield, none) := by
  simp [process_paginated_api_response, mkPageResponse_json,
    decodePageItems_mkPage p items none hp, jsonNext_mkPage_none]

/-- Yield events contribute their items in order. -/
theorem yieldedItems_append_yields (xs : List Json) (l : List Event) :
    yieldedItems (xs.map Event.yield ++ l) = xs ++ yieldedItems l := by
  induction xs with
  | nil => rfl
  | cons x xs ih => simpa [yieldedItems, List.filterMap_cons] using ih

/-- Fetch events contribute no items. -/
theorem yieldedItems_get_cons (u : String) (l : List Event) :
    yieldedItems (Event.get u :: l) = yieldedItems l := by
  simp [yieldedItems, List.filterMap_cons]

/-- A trace of yields alone hands over exactly its items. -/
theorem yieldedItems_yields (xs : List Json) :
    yieldedItems (xs.map Event.yield) = xs := by
  simpa [yieldedItems] using yieldedItems_append_yields xs []

/-- C1: for a three-page response chain — pages 1 and 2 carry a
`links.next` URL, page 3 does not — the paginated decoder's trace is
exactly: the items of page 1 in order, then (only after the last item of
page 1 has been pulled) the GET for page 2, then page 2's items, then the
GET for page 3, then page 3's items; and the yielded sequence is exactly
the concatenation of the three pages' item lists, in page order then
intra-page order.  The trace order is the pull order of the generator, so
each GET happens only after the prior page is fully consumed. -/
theorem paginated_three_pages_lazy_trace (server : String → Response) (p : Json → Bool)
    (xs1 xs2 xs3 : List Json) (u2 u3 : String)
    (hp1 : xs1.all p = true) (hp2 : xs2.all p = true) (hp3 : xs3.all p = true)
    (h2 : server u2 = mkPageResponse xs2 (some u3))
    (h3 : server u3 = mkPageResponse xs3 none) :
    process_paginated_api_response server p 3 (mkPageResponse xs1 (some u2))
      = (xs1.map Event.yield
          ++ Event.get u2 :: (xs2.map Event.yield ++ Event.get u3 :: xs3.map Event.yield),
         none)
    ∧ yieldedItems (process_paginated_api_response server p 3 (mkPageResponse xs1 (some u2))).1
        = xs1 ++ xs2 ++ xs3 := by
  have e3 : process_paginated_api_response server p 1 (server u3)
      = (xs3.map Event.yield, none) := by
    rw [h3]; exact paginated_step_last server p 0 xs3 hp3
  have e2 : process_paginated_api_response server p 2 (server u2)
      = (xs2.map Event.yield ++ Event.get u3 :: xs3.map Event.yield, none) := by
    rw [h2, paginated_step_next server p 1 xs2 u3 hp2, e3]
  have e1 : process_paginated_api_response server p 3 (mkPageResponse xs1 (some u2))
      = (xs1.map Event.yield
          ++ Event.get u2 :: (xs2.map Event.yield ++ Event.get u3 :: xs3.map Event.yield),
         none) := by
    rw [paginated_step_next server p 2 xs1 u2 hp1, e2]
  refine ⟨e1, ?_⟩
  rw [e1]
  simp [yieldedItems_append_yields, yieldedItems_get_cons, yieldedItems_yields,
    List.append_assoc]

theorem paginated_three_pages_lazy_trace_witness :
    process_paginated_api_response pageServer (fun _ => true) 3
        (mkPageResponse [Json.num 11] (some "page2"))
      = ([Event.yield (Json.num 11), Event.get "page2", Event.yield (Json.num 21),
          Event.yield (Json.num 22), Event.get "page3", Event.yield (Json.num 31)], none)
    ∧ yieldedItems (process_paginated_api_response pageServer (fun _ => true) 3
        (mkPageResponse [Json.num 11] (some "page2"))).1
      = [Json.num 11, Json.num 21, Json.num 22, Json.num 31] := by
  have h := paginated_three_pages_lazy_trace pageServer (fun _ => true)
    [Json.num 11] [Json.num 21, Json.num 22] [Json.num 31] "page2" "page3"
    rfl rfl rfl rfl rfl
  simpa using h

/-- Anchored matching succeeds on any extension of the pattern. -/
theorem matchesAt_append_self (pat t : List Char) : matchesAt pat (pat ++ t) = true := by
  induction pat with
  | nil => rfl
  | cons c cs ih => simp [matchesAt, ih]

/-- Anchored matching only succeeds when the subject extends the pattern. -/
theorem matchesAt_true_split (pat s : List Char) (h : matchesAt pat s = true) :
    ∃ t, s = pat ++ t := by
  induction pat generalizing s with
  | nil => exact ⟨s, rfl⟩
  | cons c cs ih =>
    cases s with
    | nil => simp [matchesAt] at h
    | cons c2 s2 =>
      simp only [matchesAt, Bool.and_eq_true, beq_iff_eq] at h
      obtain ⟨t, ht⟩ := ih s2 h.2
      exact ⟨t, by simp [h.1, ht]⟩

/-- The regex scan at a position where the pattern matches returns the
suffix right after the pattern. -/
theorem searchMarker_at_head (tail : List Char) :
    searchMarker (markerL ++ tail) = some tail := by
  rw [searchMarker.eq_def, if_pos (matchesAt_append_self markerL tail)]
  simp [List.drop_left]

/-- The regex scan finds the first occurrence of the marker: when the
subject splits as `pre ++ markerL ++ tail` and no earlier split exists,
the suffix after the first occurrence is `tail`. -/
theorem searchMarker_first (pre tail : List Char)
    (hfirst : ∀ s₁ s₂ : List Char,
      pre ++ (markerL ++ tail) = s₁ ++ (markerL ++ s₂) → pre.length ≤ s₁.length) :
    searchMarker (pre ++ (markerL ++ tail)) = some tail := by
  induction pre with
  | nil => simpa using searchMarker_at_head tail
  | cons c cs ih =>
    have hnm : matchesAt markerL (c :: (cs ++ (markerL ++ tail))) = false := by
      cases hb : matchesAt markerL (c :: (cs ++ (markerL ++ tail))) with
      | false => rfl
      | true =>
        obtain ⟨t, ht⟩ := matchesAt_true_split _ _ hb
        have hlen := hfirst [] t (by simpa using ht)
        simp at hlen
    rw [List.cons_append, searchMarker.eq_def]
    rw [if_neg (by simp [hnm])]
    exact ih fun s₁ s₂ hsplit => by
      have := hfirst (c :: s₁) s₂ (by simp [hsplit])
      simpa [Nat.succ_le_succ_iff] using this

/-- The greedy `[^\n]*` capture takes everything before the next newline. -/
theorem takeWhile_until_newline (l r : List Char) (h : '\n' ∉ l) :
    (l ++ '\n' :: r).takeWhile (fun c => c != '\n') = l := by
  induction l with
  | nil => simp [List.takeWhile_cons]
  | cons c cs ih =>
    simp only [List.mem_cons, not_or] at h
    have hc : (c != '\n') = true := by
      simp [bne_iff_ne]
      exact fun he => h.1 he.symm
    simp [List.takeWhile_cons, hc, ih h.2]

/-- Without any newline the greedy capture takes the whole suffix. -/
theorem takeWhile_no_newline (l : List Char) (h : '\n' ∉ l) :
    l.takeWhile (fun c => c != '\n') = l := by
  induction l with
  | nil => rfl
  | cons c cs ih =>
    simp only [List.mem_cons, not_or] at h
    have hc : (c != '\n') = true := by
      simp [bne_iff_ne]
      exact fun he => h.1 he.symm
    simp [List.takeWhile_cons, hc, ih h.2]

/-- C3: for every note that contains the marker, the extracted beneficiary
is the capture of everything after the first `Original account name: `
occurrence up to (not including) the next newline, trimmed of leading and
trailing whitespace; in particular the note
`Original account name: Acme Corp\nextra line` yields exactly
`Acme Corp`. -/
theorem beneficiary_extraction_capture_trim (pre tail : List Char)
    (hfirst : ∀ s₁ s₂ : List Char,
      pre ++ (markerL ++ tail) = s₁ ++ (markerL ++ s₂) → pre.length ≤ s₁.length) :
    extract_beneficiary (String.mk (pre ++ (markerL ++ tail)))
      = some (String.mk (stripChars (tail.takeWhile fun c => c != '\n')))
    ∧ extract_beneficiary "Original account name: Acme Corp\nextra line"
        = some "Acme Corp" := by
  constructor
  · have hl : (String.mk (pre ++ (markerL ++ tail))).toList
      = pre ++ (markerL ++ tail) := rfl
    rw [extract_beneficiary, hl, searchMarker_first pre tail hfirst]
  · rfl

theorem beneficiary_extraction_capture_trim_witness :
    extract_beneficiary (String.mk ([] ++ (markerL ++ " Bob Ltd ".toList)))
      = some (String.mk (stripChars ((" Bob Ltd ".toList).takeWhile fun c => c != '\n'))) :=
  (beneficiary_extraction_capture_trim [] (" Bob Ltd ".toList)
    (fun _ _ _ => Nat.zero_le _)).1

/-- The scan of a list that starts with successfully processed
transactions continues into the remainder. -/
theorem scanAll_append_ok (pre rest : List Json) (evs : List ScanEvent)
    (h : scanAll pre = Except.ok evs) :
    scanAll (pre ++ rest)
      = match scanAll rest with
        | Except.error e => Except.error e
        | Except.ok evs2 => Except.ok (evs ++ evs2) := by
  induction pre generalizing evs with
  | nil =>
    simp only [scanAll] at h
    cases h
    cases hr : scanAll rest <;> simp [hr]
  | cons tx txs ih =>
    simp only [scanAll] at h
    cases hp : processTx tx with
    | error e => rw [hp] at h; cases h
    | ok ev =>
      rw [hp] at h
      cases hs : scanAll txs with
      | error e => rw [hs] at h; cases h
      | ok evs1 =>
        rw [hs] at h
        cases h
        cases hr : scanAll rest with
        | error e => simp [scanAll, hp, ih evs1 hs, hr]
        | ok evs2 => simp [scanAll, hp, ih evs1 hs, hr]

/-- Membership after one set insertion. -/
theorem mem_dedupAdd (acc : List String) (x m : String) :
    m ∈ dedupAdd acc x ↔ m ∈ acc ∨ m = x := by
  by_cases hx : x ∈ acc
  · simp only [dedupAdd, if_pos hx]
    constructor
    · exact Or.inl
    · rintro (h | rfl)
      · exact h
      · exact hx
  · simp [dedupAdd, if_neg hx, List.mem_append]

/-- Membership in the accumulated set. -/
theorem mem_foldl_dedupAdd (l : List String) (acc : List String) (m : String) :
    m ∈ List.foldl dedupAdd acc l ↔ m ∈ acc ∨ m ∈ l := by
  induction l generalizing acc with
  | nil => simp
  | cons x xs ih =>
    rw [List.foldl_cons, ih, mem_dedupAdd]
    simp [List.mem_cons]
    tauto

/-- Set insertion preserves freedom from duplicates. -/
theorem nodup_dedupAdd (acc : List String) (x : String) (h : acc.Nodup) :
    (dedupAdd acc x).Nodup := by
  by_cases hx : x ∈ acc
  · simpa [dedupAdd, if_pos hx] using h
  · simp [dedupAdd, if_neg hx, List.nodup_append, h, hx]

/-- The accumulated set is free of duplicates. -/
theorem nodup_foldl_dedupAdd (l : List String) (acc : List String) (h : acc.Nodup) :
    (List.foldl dedupAdd acc l).Nodup := by
  induction l generalizing acc with
  | nil => simpa
  | cons x xs ih => exact ih _ (nodup_dedupAdd acc x h)

/-- A successfully processed transaction contributes exactly the name the
extraction reads off its notes. -/
theorem processTx_ok_name (tx : Json) (ev : ScanEvent) (h : processTx tx = Except.ok ev) :
    txName tx = ScanEvent.nameOf ev := by
  cases tx with
  | obj fields =>
    cases hid : List.lookup "transaction_journal_id" fields with
    | none => simp [processTx, hid] at h
    | some tid =>
      cases hn : List.lookup "notes" fields with
      | none => simp [processTx, hid, hn] at h
      | some v =>
        cases v with
        | str s =>
          cases he : extract_beneficiary s with
          | none =>
            simp [processTx, hid, hn, he] at h
            subst h
            simp [txName, hn, he, ScanEvent.nameOf]
          | some n =>
            simp [processTx, hid, hn, he] at h
            subst h
            simp [txName, hn, he, ScanEvent.nameOf]
        | null => simp [processTx, hid, hn] at h
        | bool b => simp [processTx, hid, hn] at h
        | num k => simp [processTx, hid, hn] at h
        | arr items => simp [processTx, hid, hn] at h
        | obj fs => simp [processTx, hid, hn] at h
  | null => cases h
  | bool b => cases h
  | num n => cases h
  | str s => cases h
  | arr items => cases h

/-- The set built by the scan loop is the set of names extracted from the
transactions, folded in order. -/
theorem scan_names (txs : List Json) (evs : List ScanEvent)
    (h : scanAll txs = Except.ok evs) (acc : List String) :
    List.foldl addEvent acc evs = List.foldl dedupAdd acc (txs.filterMap txName) := by
  induction txs generalizing evs acc with
  | nil =>
    simp only [scanAll] at h
    cases h
    rfl
  | cons tx rest ih =>
    simp only [scanAll] at h
    cases hp : processTx tx with
    | error e => rw [hp] at h; cases h
    | ok ev =>
      rw [hp] at h
      cases hs : scanAll rest with
      | error e => rw [hs] at h; cases h
      | ok evs2 =>
        rw [hs] at h
        cases h
        rw [List.filterMap_cons]
        have hname := processTx_ok_name tx ev hp
        cases ev with
        | logError t =>
          simp only [ScanEvent.nameOf] at hname
          rw [hname, List.foldl_cons]
          simpa [addEvent] using ih evs2 hs acc
        | addName n =>
          simp only [ScanEvent.nameOf] at hname
          rw [hname, List.foldl_cons, List.foldl_cons]
          simpa [addEvent] using ih evs2 hs (dedupAdd acc n)

/-- A rule creation step either fails after the creation POST alone, or
issues exactly the creation POST followed by one trigger POST. -/
theorem create_fixing_rule_cases (postS : String → Json → Response)
    (account b group : String) :
    (∃ e, create_fixing_rule postS account b group
        = ([Request.post rulesUrl (ruleBody account b group)], Except.error e))
    ∨ (∃ turl res, create_fixing_rule postS account b group
        = ([Request.post rulesUrl (ruleBody account b group),
            Request.post turl (Json.obj [])], res)) := by
  simp only [create_fixing_rule]
  split
  · exact Or.inl ⟨_, rfl⟩
  · split
    · exact Or.inl ⟨_, rfl⟩
    · split
      · exact Or.inr ⟨_, _, rfl⟩
      · exact Or.inr ⟨_, _, rfl⟩

/-- A successful rule creation issues exactly the creation POST followed by
one trigger POST. -/
theorem create_fixing_rule_ok_shape (postS : String → Json → Response)
    (account b group : String) (rule : Json)
    (h : (create_fixing_rule postS account b group).2 = Except.ok rule) :
    ∃ turl, (create_fixing_rule postS account b group).1
      = [Request.post rulesUrl (ruleBody account b group),
         Request.post turl (Json.obj [])] := by
  rcases create_fixing_rule_cases postS account b group with ⟨e, hc⟩ | ⟨turl, res, hc⟩
  · rw [hc] at h
    cases h
  · exact ⟨turl, by rw [hc]⟩

/-- The creation POST of one rule step carries exactly its beneficiary as
title; the trigger POST has an empty body and no title. -/
theorem ruleCreationTitles_pair (account b group turl : String) :
    ruleCreationTitles [Request.post rulesUrl (ruleBody account b group),
      Request.post turl (Json.obj [])] = [b] := by
  simp [ruleCreationTitles, ruleBody, List.filterMap_cons, List.lookup]

/-- Title extraction distributes over request concatenation. -/
theorem ruleCreationTitles_append (l1 l2 : List Request) :
    ruleCreationTitles (l1 ++ l2) = ruleCreationTitles l1 ++ ruleCreationTitles l2 := by
  simp [ruleCreationTitles, List.filterMap_append]

/-- In a run of the provisioning loop that raises nothing, the titles of
the rule-creation POSTs are exactly the provisioned beneficiaries, in
order: one creation POST per name. -/
theorem provisionAll_titles (postS : String → Json → Response) (account group : String)
    (bs : List String) (h : (provisionAll postS account group bs).2 = none) :
    ruleCreationTitles (provisionAll postS account group bs).1 = bs := by
  induction bs with
  | nil => rfl
  | cons b rest ih =>
    simp only [provisionAll] at h ⊢
    cases hc : (create_fixing_rule postS account b group).2 with
    | error e =>
      rw [hc] at h
      cases h
    | ok rule =>
      rw [hc] at h
      dsimp only at h ⊢
      cases hl : ruleLogFields rule with
      | error e =>
        rw [hl] at h
        cases h
      | ok u =>
        rw [hl] at h
        dsimp only at h ⊢
        obtain ⟨turl, hshape⟩ := create_fixing_rule_ok_shape postS account b group rule hc
        rw [hshape, ruleCreationTitles_append, ruleCreationTitles_pair, ih h]
        rfl

/-- C8: a transaction whose notes do not match the marker regex makes the
scan log an error and skip it: the scan of the surrounding transactions is
unchanged, the skipped transaction contributes no beneficiary name, and
the transactions after it are still processed — a non-matching note never
aborts the run. -/
theorem nonmatching_note_skipped (pre post : List Json) (evs1 evs2 : List ScanEvent)
    (fields : List (String × Json)) (tid : Json) (notes : String)
    (hpre : scanAll pre = Except.ok evs1) (hpost : scanAll post = Except.ok evs2)
    (hid : List.lookup "transaction_journal_id" fields = some tid)
    (hnotes : List.lookup "notes" fields = some (Json.str notes))
    (hnomatch : extract_beneficiary notes = none) :
    scanAll (pre ++ Json.obj fields :: post)
        = Except.ok (evs1 ++ ScanEvent.logError tid :: evs2)
    ∧ namesFromEvents (evs1 ++ ScanEvent.logError tid :: evs2)
        = namesFromEvents (evs1 ++ evs2) := by
  have htx : processTx (Json.obj fields) = Except.ok (ScanEvent.logError tid) := by
    simp [processTx, hid, hnotes, hnomatch]
  constructor
  · rw [scanAll_append_ok pre _ evs1 hpre]
    simp [scanAll, htx, hpost]
  · simp [namesFromEvents, List.foldl_append, addEvent]

theorem nonmatching_note_skipped_witness :
    scanAll ([Json.obj [("transaction_journal_id", Json.str "9"),
                ("notes", Json.str "Original account name: Acme")]]
        ++ Json.obj [("transaction_journal_id", Json.str "1"),
              ("notes", Json.str "no marker here")] :: [])
      = Except.ok ([ScanEvent.addName "Acme"] ++ ScanEvent.logError (Json.str "1") :: [])
    ∧ namesFromEvents ([ScanEvent.addName "Acme"] ++ ScanEvent.logError (Json.str "1") :: [])
      = namesFromEvents ([ScanEvent.addName "Acme"] ++ []) :=
  nonmatching_note_skipped
    [Json.obj [("transaction_journal_id", Json.str "9"),
      ("notes", Json.str "Original account name: Acme")]]
    [] [ScanEvent.addName "Acme"] []
    [("transaction_journal_id", Json.str "1"), ("notes", Json.str "no marker here")]
    (Json.str "1") "no marker here" rfl rfl rfl rfl rfl

/-- C2: when two (or more) transactions of the scan extract the same
beneficiary name, the run — if its provisioning loop raises nothing —
issues exactly one rule-creation POST for that name; more generally the
rule-creation POSTs' titles are exactly the duplicate-free set of names
extracted from the scanned transactions, one POST per distinct name (a
name is in the set exactly when some transaction extracts it). -/
theorem duplicate_beneficiary_single_rule_post (postS : String → Json → Response)
    (account group : String) (txs : List Json) (evs : List ScanEvent)
    (tx1 tx2 : Json) (n : String)
    (hscan : scanAll txs = Except.ok evs)
    (h1 : tx1 ∈ txs) (_h2 : tx2 ∈ txs)
    (hn1 : txName tx1 = some n) (_hn2 : txName tx2 = some n)
    (hprov : (provisionAll postS account group (namesFromEvents evs)).2 = none) :
    List.count n
        (ruleCreationTitles (provisionAll postS account group (namesFromEvents evs)).1) = 1
    ∧ ruleCreationTitles (provisionAll postS account group (namesFromEvents evs)).1
        = namesFromEvents evs
    ∧ (namesFromEvents evs).Nodup
    ∧ (∀ m, m ∈ namesFromEvents evs ↔ ∃ tx ∈ txs, txName tx = some m) := by
  have htitles := provisionAll_titles postS account group (namesFromEvents evs) hprov
  have hnames : namesFromEvents evs = List.foldl dedupAdd [] (txs.filterMap txName) :=
    scan_names txs evs hscan []
  have hmem : ∀ m, m ∈ namesFromEvents evs ↔ ∃ tx ∈ txs, txName tx = some m := by
    intro m
    rw [hnames, mem_foldl_dedupAdd]
    simp [List.mem_filterMap]
  have hnodup : (namesFromEvents evs).Nodup := by
    rw [hnames]
    exact nodup_foldl_dedupAdd _ _ List.nodup_nil
  refine ⟨?_, htitles, hnodup, hmem⟩
  rw [htitles]
  exact List.count_eq_one_of_mem hnodup ((hmem n).2 ⟨tx1, h1, hn1⟩)

theorem duplicate_beneficiary_single_rule_post_witness :
    List.count "Total Wine"
        (ruleCreationTitles (provisionAll cexPost "12" "grp"
          (namesFromEvents [ScanEvent.addName "Total Wine",
            ScanEvent.addName "Total Wine"])).1) = 1 :=
  (duplicate_beneficiary_single_rule_post cexPost "12" "grp"
    [Json.obj [("transaction_journal_id", Json.str "1"),
       ("notes", Json.str "Original account name: Total Wine")],
     Json.obj [("transaction_journal_id", Json.str "2"),
       ("notes", Json.str "Original account name: Total Wine")]]
    [ScanEvent.addName "Total Wine", ScanEvent.addName "Total Wine"]
    (Json.obj [("transaction_journal_id", Json.str "1"),
       ("notes", Json.str "Original account name: Total Wine")])
    (Json.obj [("transaction_journal_id", Json.str "2"),
       ("notes", Json.str "Original account name: Total Wine")])
    "Total Wine" rfl (by simp) (by simp) rfl rfl rfl).1

/-- C10: the scan validates page elements only as generic objects, with no
constraint on their fields; consequently a page element without an
`attributes` object, an attributes object without a `transactions` list,
a transaction without `transaction_journal_id` or `notes`, or a
non-string notes value each abort the run with an unhandled
`KeyError`/`TypeError` (a `crash`, not a `ValidationError`): the scan
stops at the offending element instead of skipping it.  The regex
non-match is the only per-item recoverable failure. -/
theorem scanner_crashes_on_malformed_shapes :
    (∀ fields : List (String × Json), jsonIsObj (Json.obj fields) = true)
    ∧ (∀ fields : List (String × Json), List.lookup "attributes" fields = none →
        getTransactionsFromPage (Json.obj fields)
          = Except.error (RunError.crash "KeyError: attributes"))
    ∧ (∀ (fields attrs : List (String × Json)),
        List.lookup "attributes" fields = some (Json.obj attrs) →
        List.lookup "transactions" attrs = none →
        getTransactionsFromPage (Json.obj fields)
          = Except.error (RunError.crash "KeyError: transactions"))
    ∧ (∀ fields : List (String × Json),
        List.lookup "transaction_journal_id" fields = none →
        processTx (Json.obj fields)
          = Except.error (RunError.crash "KeyError: transaction_journal_id"))
    ∧ (∀ (fields : List (String × Json)) (tid : Json),
        List.lookup "transaction_journal_id" fields = some tid →
        List.lookup "notes" fields = none →
        processTx (Json.obj fields) = Except.error (RunError.crash "KeyError: notes"))
    ∧ (∀ (fields : List (String × Json)) (tid v : Json),
        List.lookup "transaction_journal_id" fields = some tid →
        List.lookup "notes" fields = some v → (∀ s, v ≠ Json.str s) →
        processTx (Json.obj fields)
          = Except.error (RunError.crash "TypeError: expected string for re.search"))
    ∧ (∀ (pre post : List Json) (tx : Json) (e : RunError) (evs : List ScanEvent),
        scanAll pre = Except.ok evs → processTx tx = Except.error e →
        scanAll (pre ++ tx :: post) = Except.error e) := by
  refine ⟨fun _ => rfl, ?_, ?_, ?_, ?_, ?_, ?_⟩
  · intro fields ha
    simp [getTransactionsFromPage, ha]
  · intro fields attrs ha ht
    simp [getTransactionsFromPage, ha, ht]
  · intro fields hid
    simp [processTx, hid]
  · intro fields tid hid hn
    simp [processTx, hid, hn]
  · intro fields tid v hid hn hv
    cases v with
    | str s => exact absurd rfl (hv s)
    | null => simp [processTx, hid, hn]
    | bool b => simp [processTx, hid, hn]
    | num k => simp [processTx, hid, hn]
    | arr items => simp [processTx, hid, hn]
    | obj fs => simp [processTx, hid, hn]
  · intro pre post tx e evs hpre htx
    rw [scanAll_append_ok pre _ evs hpre]
    simp [scanAll, htx]

theorem scanner_crashes_on_malformed_shapes_witness :
    jsonIsObj (Json.obj [("id", Json.str "3")]) = true
    ∧ getTransactionsFromPage (Json.obj [("id", Json.str "3")])
        = Except.error (RunError.crash "KeyError: attributes")
    ∧ getTransactionsFromPage (Json.obj [("attributes", Json.obj [])])
        = Except.error (RunError.crash "KeyError: transactions")
    ∧ processTx (Json.obj []) = Except.error (RunError.crash "KeyError: transaction_journal_id")
    ∧ processTx (Json.obj [("transaction_journal_id", Json.str "1")])
        = Except.error (RunError.crash "KeyError: notes")
    ∧ processTx (Json.obj [("transaction_journal_id", Json.str "1"), ("notes", Json.null)])
        = Except.error (RunError.crash "TypeError: expected string for re.search")
    ∧ scanAll ([] ++ Json.null :: [Json.obj []])
        = Except.error (RunError.crash "TypeError: transaction is not subscriptable") :=
  ⟨scanner_crashes_on_malformed_shapes.1 [("id", Json.str "3")],
   scanner_crashes_on_malformed_shapes.2.1 [("id", Json.str "3")] rfl,
   scanner_crashes_on_malformed_shapes.2.2.1 [("attributes", Json.obj [])] [] rfl rfl,
   scanner_crashes_on_malformed_shapes.2.2.2.1 [] rfl,
   scanner_crashes_on_malformed_shapes.2.2.2.2.1 [("transaction_journal_id", Json.str "1")]
     (Json.str "1") rfl rfl,
   scanner_crashes_on_malformed_shapes.2.2.2.2.2.1
     [("transaction_journal_id", Json.str "1"), ("notes", Json.null)]
     (Json.str "1") Json.null rfl rfl (fun _ h => Json.noConfusion h),
   scanner_crashes_on_malformed_shapes.2.2.2.2.2.2 [] [Json.obj []] Json.null
     (RunError.crash "TypeError: transaction is not subscriptable") [] rfl rfl⟩

/-- C9, counterexample to the claim as stated: the trigger call's check is
`raise_for_status`, which raises only for statuses in `[400, 600)` — not
for every non-2xx status.  With a trigger response of status 304 (a
non-2xx status) the rule creation completes successfully instead of
raising. -/
theorem trigger_status_304_no_raise_cex :
    (cexPost "/api/v1/rules/7/trigger" (Json.obj [])).status = 304
    ∧ ¬(200 ≤ (cexPost "/api/v1/rules/7/trigger" (Json.obj [])).status
        ∧ (cexPost "/api/v1/rules/7/trigger" (Json.obj [])).status ≤ 299)
    ∧ create_fixing_rule cexPost "acc" "Total Wine" "grp"
        = ([Request.post rulesUrl (ruleBody "acc" "Total Wine" "grp"),
            Request.post "/api/v1/rules/7/trigger" (Json.obj [])],
           Except.ok cexRule) := by
  refine ⟨rfl, by decide, rfl⟩

/-- C9, amended: for every beneficiary provisioned, the creation POST body
is exactly the rule body (title = beneficiary, group, strict, trigger
`store-journal`, the three trigger conditions and the single action);
when the creation response decodes to a rule object with an `id`, a POST
with an empty JSON body is immediately sent to that rule's trigger
endpoint, checked only by the HTTP-status assertion `raise_for_status`
(which raises exactly for statuses in `[400, 600)`, not for every
non-2xx status), and the created rule object is returned. -/
theorem create_fixing_rule_requests (postS : String → Json → Response)
    (account beneficiary group : String) (dfs rfs : List (String × Json)) (rid : String)
    (hresp : (postS rulesUrl (ruleBody account beneficiary group)).json
        = some (Json.obj dfs))
    (henv : errEnvelopeMsg dfs = none)
    (hdata : List.lookup "data" dfs = some (Json.obj rfs))
    (hid : List.lookup "id" rfs = some (Json.str rid)) :
    create_fixing_rule postS account beneficiary group
      = ([Request.post rulesUrl (ruleBody account beneficiary group),
          Request.post ("/api/v1/rules/" ++ rid ++ "/trigger") (Json.obj [])],
         if 400 ≤ (postS ("/api/v1/rules/" ++ rid ++ "/trigger") (Json.obj [])).status
            ∧ (postS ("/api/v1/rules/" ++ rid ++ "/trigger") (Json.obj [])).status < 600
         then Except.error RunError.httpError
         else Except.ok (Json.obj rfs))
    ∧ ruleBody account beneficiary group = Json.obj
        [("title", Json.str beneficiary),
         ("rule_group_title", Json.str group),
         ("strict", Json.bool true),
         ("trigger", Json.str "store-journal"),
         ("triggers", Json.arr
           [Json.obj [("type", Json.str "transaction_type"),
                      ("value", Json.str "withdrawal")],
            Json.obj [("type", Json.str "to_account_is"), ("value", Json.str account)],
            Json.obj [("type", Json.str "notes_contains"),
                      ("value", Json.str ("Original account name: " ++ beneficiary))]]),
         ("actions", Json.arr
           [Json.obj [("type", Json.str "set_destination_account"),
                      ("value", Json.str beneficiary)]])] := by
  constructor
  · have hdec : process_api_response jsonIsObj (postS rulesUrl (ruleBody account beneficiary group))
        = Except.ok (Json.obj rfs) := by
      simp [process_api_response, hresp, henv, hdata, jsonIsObj]
    have hget : getItem (Json.obj rfs) "id" = Except.ok (Json.str rid) := by
      simp [getItem, hid]
    simp only [create_fixing_rule, hdec, hget, jsonToStr]
    by_cases hc : 400 ≤ (postS ("/api/v1/rules/" ++ rid ++ "/trigger") (Json.obj [])).status
        ∧ (postS ("/api/v1/rules/" ++ rid ++ "/trigger") (Json.obj [])).status < 600
    · rw [if_pos hc, if_pos hc]
    · rw [if_neg hc, if_neg hc]
  · rfl

theorem create_fixing_rule_requests_witness :
    create_fixing_rule cexPost "acc2" "ben2" "grp2"
      = ([Request.post rulesUrl (ruleBody "acc2" "ben2" "grp2"),
          Request.post "/api/v1/rules/7/trigger" (Json.obj [])],
         Except.ok (Json.obj [("id", Json.str "7"),
           ("attributes", Json.obj [("title", Json.str "Total Wine")])])) := by
  have h := (create_fixing_rule_requests cexPost "acc2" "ben2" "grp2"
    [("data", cexRule)]
    [("id", Json.str "7"), ("attributes", Json.obj [("title", Json.str "Total Wine")])]
    "7" rfl rfl rfl rfl).1
  simpa [cexPost, rulesUrl] using h

/-- Every request recorded from a pagination trace is a GET. -/
theorem eventRequests_all_get (events : List Event) :
    (eventRequests events).all isGetRequest = true := by
  induction events with
  | nil => rfl
  | cons e rest ih =>
    cases e with
    | get u => simpa [eventRequests, List.filterMap_cons, isGetRequest] using ih
    | yield j => simpa [eventRequests, List.filterMap_cons] using ih

/-- C4: a run with the dry-run flag set issues zero POST requests — no
rule creation and no rule trigger — whatever the servers answer and
however many distinct missing beneficiaries the scan discovers: every
request of the run is a GET. -/
theorem dry_run_issues_no_posts (getS : String → Response) (postS : String → Json → Response)
    (rUser rSearch : Response) (fuel : Nat) (account group : String) :
    ((main_run getS postS rUser rSearch fuel true account group).1).all isGetRequest
      = true := by
  simp only [main_run, if_true]
  split
  · rfl
  · split
    · rfl
    · split
      · simp [isGetRequest, eventRequests_all_get]
      · split
        · simp [isGetRequest, eventRequests_all_get]
        · split
          · simp [isGetRequest, eventRequests_all_get]
          · simp [isGetRequest, eventRequests_all_get]

end FireflyGaf
